import Mathlib

/-!
Shallow embedding of the multimodal artifact indexing and retrieval pipeline:
the embedding provider and icon filter (`src/tools/embeddings.py`), the
metadata extractor (`src/utils/get_attachments_metadata.py`), the ingestion
pipeline (`src/utils/preprocess_attachments.py`), and the Milvus search tools
(`src/tools/milvus_tools.py`).

Neural-network encoders are embedded freely: an `EncVec` records which encoder
produced the vector and on what input, since the numeric output of an external
model is opaque while the code's routing and control flow are exact.  External
effects (filesystem reads, image decoding, exiftool, the Milvus server) are
parameters; everything the repository's own code does is translated directly.
-/

/-- A decoded PIL image as `is_icon` observes it: its size, the number of
distinct colors of its flattened RGBA conversion, and whether the
`convert("RGBA").getcolors(...)` call raises. -/
structure PILImage where
  width : Nat
  height : Nat
  distinctColors : Nat
  getcolorsRaises : Bool
deriving DecidableEq, Repr

/-- The two embedding spaces of the system. -/
inductive Space where
  | textSpace : Space
  | imageSpace : Space
deriving DecidableEq, Repr

/-- Free embedding of encoder outputs: a vector is identified by the encoder
that produced it and the input it was applied to.
`textEnc` is `text_model.encode` (SentenceTransformer), `imgTextEnc` is the
image model's `get_text_features` on tokenized text, `imgEnc` is the image
model's `get_image_features`. -/
inductive EncVec where
  | textEnc : String → EncVec
  | imgTextEnc : String → EncVec
  | imgEnc : PILImage → EncVec
deriving DecidableEq, Repr

/-- The space an encoded vector lives in. -/
def EncVec.space : EncVec → Space
  | .textEnc _ => .textSpace
  | .imgTextEnc _ => .imageSpace
  | .imgEnc _ => .imageSpace

/-- `EDGE_MAX = 150` (src/tools/embeddings.py line 52). -/
def EDGE_MAX : Nat := 150

/-- `ASPECT_TOLER = 4` (defined in the source, never used). -/
def ASPECT_TOLER : Nat := 4

/-- `COLORS_MAX = 256` (src/tools/embeddings.py line 54). -/
def COLORS_MAX : Nat := 256

/-- `img.convert("RGBA").getcolors(maxcolors)`: raises for a corrupted image,
returns `None` when the image has more than `maxcolors` distinct colors, and
otherwise the list of distinct colors (we keep only its length). -/
def getcolors (img : PILImage) (maxcolors : Nat) : Except Unit (Option Nat) :=
  if img.getcolorsRaises then .error ()
  else if img.distinctColors > maxcolors then .ok none
  else .ok (some img.distinctColors)

/-- `is_icon` (src/tools/embeddings.py lines 56-77): too big never an icon;
color counting failure or a palette above `COLORS_MAX` never an icon; a
supplied file-size hint above 10000 bytes never an icon; otherwise an icon. -/
def is_icon (img : PILImage) (file_bytes : Option Nat := none) : Bool :=
  if max img.width img.height > EDGE_MAX then false
  else
    match getcolors img (256 * 256) with
    | .error _ => false
    | .ok none => false
    | .ok (some n) =>
      if n > COLORS_MAX then false
      else
        match file_bytes with
        | some b => if b > 10000 then false else true
        | none => true

/-- Python character slicing `s[:n]`: the first `n` characters of `s` (the
whole string when shorter).  Agrees with `String.take` but is stated over the
character list directly. -/
def strTake (s : String) (n : Nat) : String :=
  ⟨s.data.take n⟩

/-- `text2vector` (src/tools/embeddings.py lines 37-50): truncates the text to
its first 500 characters and encodes the snippet with the sentence-transformer
text model. -/
def text2vector (text : String) : EncVec :=
  .textEnc (strTake text 500)

/-- `image2vector` (src/tools/embeddings.py lines 79-93): opens the image
(`openImage` stands for `Image.open(path).convert("RGB")`, which may raise);
when `filter_icons` is set and `is_icon(img)` holds — note: called without a
file-size hint — returns `None`; otherwise encodes with the image model's
`get_image_features`.  Every exception is caught and turned into `None`. -/
def image2vector (openImage : String → Except String PILImage)
    (image_path : String) (filter_icons : Bool := true) : Option EncVec :=
  match openImage image_path with
  | .error _ => none
  | .ok img =>
    if filter_icons && is_icon img then none
    else some (.imgEnc img)

/-- `query2vector` (src/tools/embeddings.py lines 112-122): encodes the query
with the image model's paired text encoder (`get_text_features`). -/
def query2vector (query : String) : EncVec :=
  .imgTextEnc query

/-- Errors raised by the exiftool helper inside `get_all_metadata`:
`exiftool.exceptions.ExifToolExecuteError` or any other exception. -/
inductive MetaErr where
  | exifToolExecuteError : String → MetaErr
  | otherError : String → MetaErr
deriving DecidableEq, Repr

/-- `exclude_patterns` (src/utils/get_attachments_metadata.py lines 26-46). -/
def exclude_patterns : List String :=
  ["File:Directory", "File:FileName", "SourceFile",
   "File:FileModifyDate", "File:FileAccessDate", "File:FileCreateDate",
   "EXIF:CreateDate", "EXIF:ModifyDate", "EXIF:DateTimeOriginal",
   "XMP:CreateDate", "XMP:ModifyDate", "XMP:DateCreated",
   "IPTC:DateCreated", "IPTC:TimeCreated", "File:FileInodeChangeDate",
   ":Date", ":Time"]

/-- Python ASCII `str.lower()` as the code applies it to extension strings
and metadata keys: each character lower-cased. -/
def lower (s : String) : String :=
  ⟨s.data.map Char.toLower⟩

/-- Python's `needle in hay` substring test. -/
def containsSub (hay needle : String) : Bool :=
  decide (needle.data <:+: hay.data)

/-- `any(pattern.lower() in key.lower() for pattern in exclude_patterns)`. -/
def shouldExclude (key : String) : Bool :=
  exclude_patterns.any (fun pat => containsSub (lower key) (lower pat))

/-- `get_all_metadata` (src/utils/get_attachments_metadata.py): resolves the
absolute path, reports a missing file as an error string, runs exiftool
(`exifMeta`, which may raise either exception, both caught and rendered as
error strings), and otherwise formats the sorted, filtered metadata items into
a human-readable block.  It never raises: every failure becomes a returned
string. -/
def get_all_metadata (abspath : String → String) (pathExists : String → Bool)
    (exifMeta : String → Except MetaErr (List (String × String)))
    (file_path : String) : String :=
  let fp := abspath file_path
  if !(pathExists fp) then
    "Error: File \x27" ++ fp ++ "\x27 does not exist."
  else
    match exifMeta fp with
    | .error (.exifToolExecuteError d) =>
      "Error: ExifTool failed to execute. Ensure ExifTool is installed and in PATH.\nDetails: " ++ d
    | .error (.otherError d) =>
      "Error extracting metadata for \x27" ++ fp ++ "\x27: " ++ d
    | .ok metadata =>
      let header := "ExifTool Metadata:\n"
      if metadata.isEmpty then (header ++ "  (No metadata found)\n").trim
      else
        let sorted := metadata.mergeSort (fun a b => decide (a.1 ≤ b.1))
        let filtered := (sorted.filter
            (fun kv => !(kv.2.trim == "") && !(shouldExclude kv.1))).map
          (fun kv => "  " ++ kv.1 ++ ": " ++ kv.2)
        let body := header ++ "ExifTool Metadata (Excluding Directories and Dates):\n"
        (if filtered.isEmpty then
          body ++ "  (No metadata found after filtering directories and dates)"
        else body ++ String.intercalate "\n" filtered).trim

/-- One record of a vector collection, as built by the ingestion flushes. -/
structure Row where
  vector : EncVec
  path : String
  modality : String
  content : String
  metadata : String
deriving DecidableEq, Repr

/-- Observable state of the Milvus store: the collections created (name and
dimension), the chronological log of `insert` calls (collection name and the
inserted rows), and the log of `flush` calls. -/
structure StoreState where
  collections : List (String × Nat)
  insertLog : List (String × List Row)
  flushLog : List String
deriving DecidableEq, Repr

/-- The store with no collections and no recorded calls. -/
def emptyStore : StoreState := ⟨[], [], []⟩

/-- `client.has_collection(name)`. -/
def StoreState.hasCollection (st : StoreState) (name : String) : Bool :=
  st.collections.any (fun c => c.1 == name)

/-- `create_collection` (src/utils/preprocess_attachments.py lines 18-29):
creates the collection if it does not exist (cosine metric, auto ids). -/
def create_collection (st : StoreState) (name : String) (dim : Nat) : StoreState :=
  if st.hasCollection name then st
  else { st with collections := st.collections ++ [(name, dim)] }

/-- `client.insert(collection, rows)`: appends one insert call to the log. -/
def StoreState.insert (st : StoreState) (name : String) (rows : List Row) : StoreState :=
  { st with insertLog := st.insertLog ++ [(name, rows)] }

/-- `client.flush(collection)`: commits buffered rows; observable only in the
flush log. -/
def StoreState.flushColl (st : StoreState) (name : String) : StoreState :=
  { st with flushLog := st.flushLog ++ [name] }

/-- The sizes of the insert calls issued against collection `c`, in order. -/
def insertCalls (st : StoreState) (c : String) : List Nat :=
  (st.insertLog.filter (fun e => e.1 == c)).map (fun e => e.2.length)

/-- `client.get_collection_stats(c)["row_count"]` for a collection created by
this run: the total number of rows inserted into `c`. -/
def StoreState.rowCount (st : StoreState) (c : String) : Nat :=
  (insertCalls st c).sum

/-- All rows inserted into collection `c`, in insertion order. -/
def insertedRows (st : StoreState) (c : String) : List Row :=
  ((st.insertLog.filter (fun e => e.1 == c)).map (fun e => e.2)).flatten

/-- Process-wide client construction state: `milvus_client_instance` (the
memoized handle of src/tools/milvus_tools.py line 19) and an allocation
counter identifying each `MilvusClient(...)` constructor call. -/
structure ClientProcState where
  memo : Option Nat
  nextId : Nat
deriving DecidableEq, Repr

/-- `get_milvus_client` (src/tools/milvus_tools.py lines 21-38): returns the
memoized instance when present; otherwise constructs a client and tests the
connection with `list_collections()` (`connectOk`); on failure the handle is
reset to `None` and `None` is returned. -/
def get_milvus_client (connectOk : Bool) (s : ClientProcState) :
    Option Nat × ClientProcState :=
  match s.memo with
  | some c => (some c, s)
  | none =>
    let c := s.nextId
    let s' : ClientProcState := { memo := none, nextId := s.nextId + 1 }
    if connectOk then (some c, { s' with memo := some c })
    else (none, s')

/-- The external world the ingestion run reads from: image decoding, text
reads (`Path.read_text`, which may raise), path resolution and existence, and
exiftool. -/
structure FS where
  openImage : String → Except String PILImage
  readText : String → Except String String
  abspath : String → String
  pathExists : String → Bool
  exifMeta : String → Except MetaErr (List (String × String))

/-- A regular file found by `DATA_ROOT.rglob("*")`: its path string and its
`Path.suffix`. -/
structure FileEntry where
  path : String
  suffix : String
deriving DecidableEq, Repr

/-- One pending image-batch entry (`img_batch["vector"]`/`["path"]`). -/
structure ImgItem where
  vector : EncVec
  path : String
deriving DecidableEq, Repr

/-- One pending text-batch entry
(`txt_batch["vector"]`/`["path"]`/`["content"]`). -/
structure TxtItem where
  vector : EncVec
  path : String
  content : String
deriving DecidableEq, Repr

/-- The in-memory state of the ingestion loop: both batches and the store. -/
structure LoopState where
  imgBatch : List ImgItem
  txtBatch : List TxtItem
  store : StoreState
deriving DecidableEq, Repr

/-- The row `flush_img` builds from one image-batch entry (modality "image",
empty content, metadata from `get_all_metadata`). -/
def imgRowMeta (fs : FS) (it : ImgItem) : Row :=
  { vector := it.vector, path := it.path, modality := "image", content := "",
    metadata := get_all_metadata fs.abspath fs.pathExists fs.exifMeta it.path }

/-- The row `flush_txt` builds from one text-batch entry (modality "text",
the stored snippet as content, metadata from `get_all_metadata`). -/
def txtRowMeta (fs : FS) (it : TxtItem) : Row :=
  { vector := it.vector, path := it.path, modality := "text", content := it.content,
    metadata := get_all_metadata fs.abspath fs.pathExists fs.exifMeta it.path }

/-- `flush_img` (src/utils/preprocess_attachments.py lines 56-66): no-op on an
empty batch; otherwise builds the rows, inserts them into the image
collection, and clears the batch. -/
def flush_img (fs : FS) (IMAGE_COLL : String) (s : LoopState) : LoopState :=
  if s.imgBatch.isEmpty then s
  else
    { s with imgBatch := [],
             store := s.store.insert IMAGE_COLL (s.imgBatch.map (imgRowMeta fs)) }

/-- `flush_txt` (src/utils/preprocess_attachments.py lines 68-78): no-op on an
empty batch; otherwise builds the rows, inserts them into the text collection,
and clears the batch. -/
def flush_txt (fs : FS) (TEXT_COLL : String) (s : LoopState) : LoopState :=
  if s.txtBatch.isEmpty then s
  else
    { s with txtBatch := [],
             store := s.store.insert TEXT_COLL (s.txtBatch.map (txtRowMeta fs)) }

/-- The image extension allow-list of `process_file`. -/
def imageExts : List String := [".jpg", ".jpeg", ".png"]

/-- The text extension allow-list of `process_file`. -/
def textExts : List String := [".txt", ".md"]

/-- `process_file` (src/utils/preprocess_attachments.py lines 80-95):
dispatches on `p.suffix.lower()`; image files go through `image2vector`
(appended only when a vector is present), text files are read, truncated to
500 characters, embedded with `text2vector` and appended; other extensions are
ignored.  Any exception (e.g. an unreadable text file) is caught and logged,
leaving the state unchanged. -/
def process_file (fs : FS) (s : LoopState) (p : FileEntry) : LoopState :=
  if imageExts.contains (lower p.suffix) then
    match image2vector fs.openImage p.path true with
    | some vec => { s with imgBatch := s.imgBatch ++ [{ vector := vec, path := p.path }] }
    | none => s
  else if textExts.contains (lower p.suffix) then
    match fs.readText p.path with
    | .ok full_text =>
      let snippet := strTake full_text 500
      let vec := text2vector snippet
      { s with txtBatch := s.txtBatch ++
          [{ vector := vec, path := p.path, content := snippet }] }
    | .error _ => s
  else s

/-- One iteration of the ingestion walk (src/utils/preprocess_attachments.py
lines 98-103): process the file, then flush either batch that has reached
`BATCH_SIZE = 100`. -/
def ingest_step (fs : FS) (IMAGE_COLL TEXT_COLL : String)
    (s : LoopState) (f : FileEntry) : LoopState :=
  let s1 := process_file fs s f
  let s2 := if 100 ≤ s1.imgBatch.length then flush_img fs IMAGE_COLL s1 else s1
  if 100 ≤ s2.txtBatch.length then flush_txt fs TEXT_COLL s2 else s2

/-- The configuration fields the ingestion run reads. -/
structure Config where
  case_name : String
deriving DecidableEq, Repr

/-- Result of an ingestion run: the id of the `MilvusClient` the run
constructed for itself, the client construction state afterwards, and the
final store state. -/
structure PreprocResult where
  clientUsed : Nat
  clients : ClientProcState
  store : StoreState
deriving DecidableEq, Repr

/-- `preprocess_data_to_milvus` (src/utils/preprocess_attachments.py lines
31-113): constructs its own `MilvusClient`, returns immediately when both
collections exist, otherwise creates both collections, walks the files
batching embeddings with `BATCH_SIZE = 100`, drains the remaining partial
batches, and flushes both collections.  `dims` stands for
`get_embedding_dimensions()` as `(DIM_TEXT, DIM_IMAGE)`; `files` is the
`rglob` file enumeration. -/
def preprocess_data_to_milvus (cfg : Config) (fs : FS) (dims : Nat × Nat)
    (files : List FileEntry) (cs : ClientProcState) (st : StoreState) :
    PreprocResult :=
  let client := cs.nextId
  let cs' : ClientProcState := { cs with nextId := cs.nextId + 1 }
  let IMAGE_COLL := cfg.case_name ++ "__attachments_image"
  let TEXT_COLL := cfg.case_name ++ "__attachments_text"
  if st.hasCollection IMAGE_COLL && st.hasCollection TEXT_COLL then
    { clientUsed := client, clients := cs', store := st }
  else
    let DIM_IMAGE := dims.2
    let DIM_TEXT := dims.1
    let st1 := create_collection st IMAGE_COLL DIM_IMAGE
    let st2 := create_collection st1 TEXT_COLL DIM_TEXT
    let sEnd := files.foldl (ingest_step fs IMAGE_COLL TEXT_COLL)
      { imgBatch := [], txtBatch := [], store := st2 }
    let sEnd2 := flush_img fs IMAGE_COLL sEnd
    let sEnd3 := flush_txt fs TEXT_COLL sEnd2
    let stF := (sEnd3.store.flushColl IMAGE_COLL).flushColl TEXT_COLL
    { clientUsed := client, clients := cs', store := stF }

/-- A search hit returned by the store (opaque to this code). -/
structure Hit where
  payload : String
deriving DecidableEq, Repr

/-- An exception raised by `client.search`: a `MilvusException` carrying its
diagnostic `code` and `message`, or any other exception. -/
inductive SearchExc where
  | milvusExc : Int → String → SearchExc
  | otherExc : String → SearchExc
deriving DecidableEq, Repr

/-- One element of the list `milvus_text_image_search` returns: either a hit
dictionary or an error dictionary. -/
inductive ResDict where
  | hit : Hit → ResDict
  | err : String → ResDict
deriving DecidableEq, Repr

/-- The arguments of one `client.search` invocation. -/
structure SearchCall where
  collection : String
  data : List EncVec
  annsField : String
  limit : Nat
  outputFields : List String
  metricType : String
deriving DecidableEq, Repr

/-- A run of the search tool: its returned value, the client construction
state afterwards, and the trace of `client.search` calls it issued. -/
structure ToolRun where
  output : List ResDict
  clients : ClientProcState
  searchCalls : List SearchCall
deriving DecidableEq, Repr

/-- `str(e)` for a pymilvus `MilvusException`. -/
def milvusExcStr (code : Int) (message : String) : String :=
  "<MilvusException: (code=" ++ toString code ++ ", message=" ++ message ++ ")>"

/-- The error string the tool builds in its `except MilvusException` branch. -/
def milvusSearchErrStr (code : Int) (message : String) : String :=
  "Milvus vector search failed: " ++ milvusExcStr code message ++
    " (Code: " ++ toString code ++ ", Message: " ++ message ++ ")"

/-- `milvus_text_image_search` (src/tools/milvus_tools.py lines 68-123):
defaults the output fields, acquires the singleton client (error dictionary
when unavailable), encodes the query with `query2vector`, and issues one
`client.search` (`searchImpl` stands for the external store).  A
`MilvusException` is rendered as an error dictionary carrying the store's
code and message; any other exception as a generic error dictionary; on
success the first result list is returned (empty when there are no results). -/
def milvus_text_image_search
    (searchImpl : String → List EncVec → String → Nat → List String → String →
      Except SearchExc (List (List Hit)))
    (connectOk : Bool) (cs : ClientProcState)
    (query_text collection_name : String) (vector_field : String := "vector")
    (limit : Nat := 5) (output_fields : Option (List String) := none)
    (metric_type : String := "COSINE") : ToolRun :=
  let ofields := output_fields.getD ["path", "modality", "metadata"]
  let acquired := get_milvus_client connectOk cs
  match acquired.1 with
  | none =>
    { output := [.err "Milvus client not available or connection failed."],
      clients := acquired.2, searchCalls := [] }
  | some _ =>
    let query_vector := query2vector query_text
    let call : SearchCall :=
      { collection := collection_name, data := [query_vector],
        annsField := vector_field, limit := limit, outputFields := ofields,
        metricType := metric_type }
    match searchImpl collection_name [query_vector] vector_field limit ofields
        metric_type with
    | .ok results =>
      { output := (match results with | [] => [] | r :: _ => r.map .hit),
        clients := acquired.2, searchCalls := [call] }
    | .error (.milvusExc code msg) =>
      { output := [.err (milvusSearchErrStr code msg)],
        clients := acquired.2, searchCalls := [call] }
    | .error (.otherExc s) =>
      { output := [.err ("Milvus vector search failed with an unexpected error: " ++ s)],
        clients := acquired.2, searchCalls := [call] }

/-- A file is routed to the image branch of `process_file`. -/
def isImageFile (f : FileEntry) : Bool :=
  imageExts.contains (lower f.suffix)

/-- A file is routed to the text branch of `process_file`. -/
def isTextFile (f : FileEntry) : Bool :=
  textExts.contains (lower f.suffix)

/-- Whether `Path.read_text` succeeds on this path. -/
def readOk (fs : FS) (p : String) : Bool :=
  match fs.readText p with
  | .ok _ => true
  | .error _ => false

/-- A text-extension file whose read succeeds: it contributes exactly one
record to the text collection. -/
def isEligibleText (fs : FS) (f : FileEntry) : Bool :=
  isTextFile f && readOk fs f.path

/-- The text-collection row ingestion produces for an eligible text file. -/
def txtRowOf (fs : FS) (f : FileEntry) : Row :=
  match fs.readText f.path with
  | .ok t =>
    { vector := text2vector (strTake t 500), path := f.path, modality := "text",
      content := strTake t 500,
      metadata := get_all_metadata fs.abspath fs.pathExists fs.exifMeta f.path }
  | .error _ =>
    { vector := text2vector "", path := f.path, modality := "text",
      content := "",
      metadata := get_all_metadata fs.abspath fs.pathExists fs.exifMeta f.path }

/-! ## General helper lemmas -/

theorem strTake_eq_take (s : String) (n : Nat) : strTake s n = s.take n := by
  rw [String.take_eq]
  rfl

theorem strTake_take (s : String) (n : Nat) :
    strTake (strTake s n) n = strTake s n := by
  simp [strTake, List.take_take]

theorem strTake_of_length_le (s : String) (n : Nat) (h : s.length ≤ n) :
    strTake s n = s := by
  cases s with
  | mk data =>
    simp only [String.length] at h
    exact congrArg String.mk (List.take_of_length_le h)

theorem containsSub_middle (a b c : String) : containsSub (a ++ b ++ c) b = true := by
  simp only [containsSub, String.data_append]
  exact decide_eq_true ⟨a.data, c.data, by simp⟩

/-! ## C6: truncation idempotence of text embedding -/

/-- C6: `text2vector` truncates its input to the first 500 characters before
encoding, so `text2vector t = text2vector (strTake t 500)` for every string `t`,
and for strings of at most 500 characters the truncation is the identity:
the encoder is applied to `t` itself. -/
theorem text2vector_truncation_idempotent (t : String) :
    text2vector t = text2vector (strTake t 500) ∧
    (t.length ≤ 500 → text2vector t = .textEnc t) := by
  constructor
  · simp only [text2vector, strTake_take]
  · intro h
    simp only [text2vector, strTake_of_length_le t 500 h]

/-- Witness for C6 at the concrete input "abc". -/
theorem text2vector_truncation_idempotent_witness :
    text2vector "abc" = text2vector (strTake "abc" 500) ∧ text2vector "abc" = .textEnc "abc" :=
  ⟨(text2vector_truncation_idempotent "abc").1,
   (text2vector_truncation_idempotent "abc").2 (by decide)⟩

/-! ## C7: icon-filter size-hint override -/

theorem is_icon_hint_gt_10000 (img : PILImage) (b : Nat) (h : 10000 < b) :
    is_icon img (some b) = false := by
  unfold is_icon
  split
  · rfl
  · cases hg : getcolors img (256 * 256) with
    | error e => rfl
    | ok o =>
      cases o with
      | none => rfl
      | some n =>
        simp only
        split
        · rfl
        · simp [h]

/-- C7: for every image and every supplied file-size hint above 10000 bytes,
`is_icon` returns `false` — in particular even when the image is at most
150 pixels on each edge and has at most 256 distinct colors. -/
theorem is_icon_size_hint_override (img : PILImage) (b : Nat) (h : 10000 < b) :
    is_icon img (some b) = false :=
  is_icon_hint_gt_10000 img b h

/-- Witness for C7: a small 16-color 100x100 image with a 20000-byte hint. -/
theorem is_icon_size_hint_override_witness :
    10000 < 20000 ∧ is_icon ⟨100, 100, 16, false⟩ (some 20000) = false :=
  ⟨by decide, is_icon_size_hint_override ⟨100, 100, 16, false⟩ 20000 (by decide)⟩

/-! ## C3: cross-space query encoding -/

/-- C3: whenever the search tool reaches the store (the client is available),
it issues exactly one `client.search`, whose query vector is
`query2vector query_text` — the image model's paired text encoder — which lies
in the image embedding space and is never an output of the text-embedding
model `text2vector`. -/
theorem image_search_uses_image_space_encoder
    (searchImpl : String → List EncVec → String → Nat → List String → String →
      Except SearchExc (List (List Hit)))
    (connectOk : Bool) (cs : ClientProcState)
    (q coll vf : String) (lim : Nat) (ofs : Option (List String)) (mt : String)
    (hclient : (get_milvus_client connectOk cs).1.isSome = true) :
    (milvus_text_image_search searchImpl connectOk cs q coll vf lim ofs mt).searchCalls
      = [{ collection := coll, data := [query2vector q], annsField := vf,
           limit := lim, outputFields := ofs.getD ["path", "modality", "metadata"],
           metricType := mt }] ∧
    (query2vector q).space = Space.imageSpace ∧
    (∀ t : String, query2vector q ≠ text2vector t) := by
  refine ⟨?_, rfl, fun t => by simp [query2vector, text2vector]⟩
  unfold milvus_text_image_search
  cases hm : (get_milvus_client connectOk cs).1 with
  | none => rw [hm] at hclient; exact absurd hclient (by simp)
  | some c =>
    simp only [hm]
    cases hs : searchImpl coll [query2vector q] vf lim
        (ofs.getD ["path", "modality", "metadata"]) mt with
    | ok results => rfl
    | error e => cases e <;> rfl

/-- Witness for C3 at a concrete query against a fresh, reachable client. -/
theorem image_search_uses_image_space_encoder_witness :
    (milvus_text_image_search (fun _ _ _ _ _ _ => .ok [[⟨"hit"⟩]]) true ⟨none, 0⟩
        "red car" "case__attachments_image" "vector" 5 none "COSINE").searchCalls
      = [{ collection := "case__attachments_image", data := [query2vector "red car"],
           annsField := "vector", limit := 5,
           outputFields := ["path", "modality", "metadata"],
           metricType := "COSINE" }] ∧
    (query2vector "red car").space = Space.imageSpace ∧
    (∀ t : String, query2vector "red car" ≠ text2vector t) :=
  image_search_uses_image_space_encoder (fun _ _ _ _ _ _ => .ok [[⟨"hit"⟩]]) true
    ⟨none, 0⟩ "red car" "case__attachments_image" "vector" 5 none "COSINE" (by decide)

/-! ## C5: structured error on a failing vector search -/

theorem milvusSearchErrStr_contains_code (code : Int) (msg : String) :
    containsSub (milvusSearchErrStr code msg) (toString code) = true := by
  unfold milvusSearchErrStr milvusExcStr containsSub
  refine decide_eq_true
    ⟨("Milvus vector search failed: " ++ "<MilvusException: (code=").data,
     (", message=" ++ msg ++ ")>" ++ " (Code: " ++ toString code ++
       ", Message: " ++ msg ++ ")").data, ?_⟩
  simp [String.data_append, List.append_assoc]

theorem milvusSearchErrStr_contains_message (code : Int) (msg : String) :
    containsSub (milvusSearchErrStr code msg) msg = true := by
  unfold milvusSearchErrStr milvusExcStr containsSub
  refine decide_eq_true
    ⟨("Milvus vector search failed: " ++ "<MilvusException: (code=" ++
        toString code ++ ", message=" ++ msg ++ ")>" ++ " (Code: " ++
        toString code ++ ", Message: ").data,
     (")" : String).data, ?_⟩
  simp [String.data_append, List.append_assoc]

/-- C5: when the store raises a `MilvusException` on a vector search (as it
does for an unknown collection or a mismatched vector dimension), the tool
returns a structured error dictionary — not an unhandled exception — whose
message contains the store's diagnostic code and message. -/
theorem search_error_includes_code_and_message
    (searchImpl : String → List EncVec → String → Nat → List String → String →
      Except SearchExc (List (List Hit)))
    (connectOk : Bool) (cs : ClientProcState)
    (q coll vf : String) (lim : Nat) (ofs : Option (List String)) (mt : String)
    (code : Int) (msg : String)
    (hclient : (get_milvus_client connectOk cs).1.isSome = true)
    (hexc : searchImpl coll [query2vector q] vf lim
        (ofs.getD ["path", "modality", "metadata"]) mt
      = .error (.milvusExc code msg)) :
    (milvus_text_image_search searchImpl connectOk cs q coll vf lim ofs mt).output
      = [.err (milvusSearchErrStr code msg)] ∧
    containsSub (milvusSearchErrStr code msg) (toString code) = true ∧
    containsSub (milvusSearchErrStr code msg) msg = true := by
  refine ⟨?_, milvusSearchErrStr_contains_code code msg,
    milvusSearchErrStr_contains_message code msg⟩
  unfold milvus_text_image_search
  cases hm : (get_milvus_client connectOk cs).1 with
  | none => rw [hm] at hclient; exact absurd hclient (by simp)
  | some c => simp only [hm, hexc]

/-- Witness for C5: a store that reports code 100, "collection not found". -/
theorem search_error_includes_code_and_message_witness :
    (milvus_text_image_search (fun _ _ _ _ _ _ => .error (.milvusExc 100 "collection not found"))
        true ⟨none, 0⟩ "query" "missing_coll" "vector" 5 none "COSINE").output
      = [.err (milvusSearchErrStr 100 "collection not found")] ∧
    containsSub (milvusSearchErrStr 100 "collection not found") (toString (100 : Int)) = true ∧
    containsSub (milvusSearchErrStr 100 "collection not found") "collection not found" = true :=
  search_error_includes_code_and_message
    (fun _ _ _ _ _ _ => .error (.milvusExc 100 "collection not found"))
    true ⟨none, 0⟩ "query" "missing_coll" "vector" 5 none "COSINE" 100
    "collection not found" (by decide) rfl

/-! ## C9: case-insensitive extension dispatch -/

/-- C9: `process_file` dispatches on `p.suffix.lower()`: every file whose
suffix lower-cases into the image allow-list is routed to `image2vector`
(appended to the image batch exactly when a vector is produced, the text batch
and store untouched), and every file whose suffix lower-cases into the text
allow-list is routed to `text2vector` on its 500-character snippet (the image
batch and store untouched). -/
theorem process_file_extension_case_insensitive
    (fs : FS) (s : LoopState) (f : FileEntry) :
    (imageExts.contains (lower f.suffix) = true →
      (process_file fs s f).txtBatch = s.txtBatch ∧
      (process_file fs s f).store = s.store ∧
      (process_file fs s f).imgBatch =
        (match image2vector fs.openImage f.path true with
         | some v => s.imgBatch ++ [{ vector := v, path := f.path }]
         | none => s.imgBatch)) ∧
    (textExts.contains (lower f.suffix) = true →
      (process_file fs s f).imgBatch = s.imgBatch ∧
      (process_file fs s f).store = s.store ∧
      (process_file fs s f).txtBatch =
        (match fs.readText f.path with
         | .ok t => s.txtBatch ++
             [{ vector := text2vector (strTake t 500), path := f.path,
                content := strTake t 500 }]
         | .error _ => s.txtBatch)) := by
  constructor
  · intro h
    unfold process_file
    rw [if_pos h]
    cases image2vector fs.openImage f.path true <;> simp
  · intro h
    have hni : imageExts.contains (lower f.suffix) = false := by
      have : lower f.suffix = ".txt" ∨ lower f.suffix = ".md" := by
        simpa [textExts] using h
      rcases this with h' | h' <;> simp [imageExts, h']
    unfold process_file
    rw [if_neg (by rw [hni]; simp), if_pos h]
    cases fs.readText f.path <;> simp

/-- A concrete filesystem for witnesses: unreadable images, every text file
reads "hello", path resolution is the identity, every path exists, exiftool
returns no tags. -/
def wfs : FS :=
  ⟨fun _ => .error "x", fun _ => .ok "hello", fun p => p, fun _ => true,
   fun _ => .ok []⟩

/-- Witness for C9: an upper-case `.JPG` goes to the image branch and a
mixed-case `.Md` goes to the text branch. -/
theorem process_file_extension_case_insensitive_witness :
    ((process_file wfs ⟨[], [], emptyStore⟩ ⟨"a.JPG", ".JPG"⟩).txtBatch = [] ∧
     (process_file wfs ⟨[], [], emptyStore⟩ ⟨"a.JPG", ".JPG"⟩).store = emptyStore ∧
     (process_file wfs ⟨[], [], emptyStore⟩ ⟨"a.JPG", ".JPG"⟩).imgBatch =
       (match image2vector wfs.openImage "a.JPG" true with
        | some v => [] ++ [{ vector := v, path := "a.JPG" }]
        | none => [])) ∧
    ((process_file wfs ⟨[], [], emptyStore⟩ ⟨"b.Md", ".Md"⟩).imgBatch = [] ∧
     (process_file wfs ⟨[], [], emptyStore⟩ ⟨"b.Md", ".Md"⟩).store = emptyStore ∧
     (process_file wfs ⟨[], [], emptyStore⟩ ⟨"b.Md", ".Md"⟩).txtBatch =
       (match wfs.readText "b.Md" with
        | .ok t => [] ++
            [{ vector := text2vector (strTake t 500), path := "b.Md",
               content := strTake t 500 }]
        | .error _ => [])) :=
  ⟨(process_file_extension_case_insensitive wfs ⟨[], [], emptyStore⟩
      ⟨"a.JPG", ".JPG"⟩).1 (by decide),
   (process_file_extension_case_insensitive wfs ⟨[], [], emptyStore⟩
      ⟨"b.Md", ".Md"⟩).2 (by decide)⟩


/-! ## C10: ingestion never supplies the file-size hint to the icon filter -/

/-- C10: `image2vector` calls `is_icon` with the image only (no `file_bytes`
argument), so during ingestion a small low-color image is filtered out —
`image2vector` returns `None` and `process_file` leaves the state unchanged —
even though supplying any file size above 10000 bytes would have made
`is_icon` return `false` and kept the image. -/
theorem image2vector_no_size_hint
    (fs : FS) (s : LoopState) (f : FileEntry) (img : PILImage)
    (hopen : fs.openImage f.path = .ok img)
    (hsz : max img.width img.height ≤ 150)
    (hcol : img.distinctColors ≤ 256)
    (hraise : img.getcolorsRaises = false)
    (hext : imageExts.contains (lower f.suffix) = true) :
    is_icon img none = true ∧
    (∀ b : Nat, 10000 < b → is_icon img (some b) = false) ∧
    image2vector fs.openImage f.path true = none ∧
    process_file fs s f = s := by
  have h1 : ¬ (max img.width img.height > EDGE_MAX) := by
    unfold EDGE_MAX; omega
  have h2 : getcolors img (256 * 256) = .ok (some img.distinctColors) := by
    unfold getcolors
    rw [if_neg (by simp [hraise]), if_neg (by omega)]
  have h3 : ¬ (img.distinctColors > COLORS_MAX) := by
    unfold COLORS_MAX; omega
  have hicon : is_icon img none = true := by
    unfold is_icon
    rw [if_neg h1, h2]
    simp only
    rw [if_neg h3]
  have hvec : image2vector fs.openImage f.path true = none := by
    unfold image2vector
    rw [hopen]
    simp [hicon]
  refine ⟨hicon, fun b hb => is_icon_hint_gt_10000 img b hb, hvec, ?_⟩
  unfold process_file
  rw [if_pos hext, hvec]

/-- Witness for C10: a 100x100, 16-color image behind path "icon.PNG". -/
theorem image2vector_no_size_hint_witness :
    is_icon ⟨100, 100, 16, false⟩ none = true ∧
    (∀ b : Nat, 10000 < b → is_icon ⟨100, 100, 16, false⟩ (some b) = false) ∧
    image2vector (fun _ => .ok ⟨100, 100, 16, false⟩) "icon.PNG" true = none ∧
    process_file ⟨fun _ => .ok ⟨100, 100, 16, false⟩, wfs.readText, wfs.abspath,
        wfs.pathExists, wfs.exifMeta⟩ ⟨[], [], emptyStore⟩ ⟨"icon.PNG", ".PNG"⟩
      = ⟨[], [], emptyStore⟩ :=
  image2vector_no_size_hint
    ⟨fun _ => .ok ⟨100, 100, 16, false⟩, wfs.readText, wfs.abspath,
     wfs.pathExists, wfs.exifMeta⟩ ⟨[], [], emptyStore⟩ ⟨"icon.PNG", ".PNG"⟩
    ⟨100, 100, 16, false⟩ rfl (by decide) (by decide) rfl (by decide)

/-! ## C8: the client singleton is shared by search but not by ingestion -/

theorem preprocess_client_shape (cfg : Config) (fs : FS) (dims : Nat × Nat)
    (files : List FileEntry) (cs : ClientProcState) (st : StoreState) :
    (preprocess_data_to_milvus cfg fs dims files cs st).clientUsed = cs.nextId ∧
    (preprocess_data_to_milvus cfg fs dims files cs st).clients
      = { cs with nextId := cs.nextId + 1 } := by
  unfold preprocess_data_to_milvus
  dsimp only
  split <;> exact ⟨rfl, rfl⟩

/-- C8 (amended): the search tools' client is a lazily initialized, memoized,
process-wide singleton, and a failed initialization leaves the memoized handle
unset so dependent calls fail fast; but ingestion does not share it:
`preprocess_data_to_milvus` constructs its own fresh `MilvusClient` (a client
distinct from the memoized one) and never touches the singleton. -/
theorem client_singleton_search_only :
    (∀ (ck : Bool) (cs : ClientProcState) (c : Nat), cs.memo = some c →
      get_milvus_client ck cs = (some c, cs)) ∧
    (∀ cs : ClientProcState, cs.memo = none →
      get_milvus_client false cs = (none, ⟨none, cs.nextId + 1⟩)) ∧
    (∀ cs : ClientProcState, cs.memo = none →
      get_milvus_client true cs = (some cs.nextId, ⟨some cs.nextId, cs.nextId + 1⟩)) ∧
    (∀ (cfg : Config) (fs : FS) (dims : Nat × Nat) (files : List FileEntry)
       (cs : ClientProcState) (st : StoreState) (c : Nat),
      cs.memo = some c → c < cs.nextId →
      (preprocess_data_to_milvus cfg fs dims files cs st).clientUsed ≠ c ∧
      (preprocess_data_to_milvus cfg fs dims files cs st).clients.memo = some c) := by
  refine ⟨?_, ?_, ?_, ?_⟩
  · intro ck cs c h
    unfold get_milvus_client
    rw [h]
  · intro cs h
    unfold get_milvus_client
    rw [h]
    rfl
  · intro cs h
    unfold get_milvus_client
    rw [h]
    rfl
  · intro cfg fs dims files cs st c hmemo hlt
    have h := preprocess_client_shape cfg fs dims files cs st
    constructor
    · rw [h.1]; omega
    · rw [h.2]; exact hmemo

/-- Witness for C8's amended theorem at concrete states. -/
theorem client_singleton_search_only_witness :
    get_milvus_client true ⟨some 7, 8⟩ = (some 7, ⟨some 7, 8⟩) ∧
    get_milvus_client false ⟨none, 3⟩ = (none, ⟨none, 4⟩) ∧
    get_milvus_client true ⟨none, 3⟩ = (some 3, ⟨some 3, 4⟩) ∧
    (preprocess_data_to_milvus ⟨"case"⟩ wfs (4, 5) [] ⟨some 0, 1⟩ emptyStore).clientUsed ≠ 0 ∧
    (preprocess_data_to_milvus ⟨"case"⟩ wfs (4, 5) [] ⟨some 0, 1⟩ emptyStore).clients.memo = some 0 :=
  ⟨client_singleton_search_only.1 true ⟨some 7, 8⟩ 7 rfl,
   client_singleton_search_only.2.1 ⟨none, 3⟩ rfl,
   client_singleton_search_only.2.2.1 ⟨none, 3⟩ rfl,
   (client_singleton_search_only.2.2.2 ⟨"case"⟩ wfs (4, 5) [] ⟨some 0, 1⟩
     emptyStore 0 rfl (by decide)).1,
   (client_singleton_search_only.2.2.2 ⟨"case"⟩ wfs (4, 5) [] ⟨some 0, 1⟩
     emptyStore 0 rfl (by decide)).2⟩

/-- C8 as stated is false: with the singleton initialized (client 0 memoized
by `get_milvus_client`), an ingestion run does not use it — it constructs a
fresh client 1 — so the store client is not a single instance shared by every
core operation. -/
theorem ingestion_client_not_singleton_counterexample :
    (get_milvus_client true ⟨none, 0⟩).1 = some 0 ∧
    (preprocess_data_to_milvus ⟨"case"⟩ wfs (4, 5) []
        (get_milvus_client true ⟨none, 0⟩).2 emptyStore).clientUsed = 1 ∧
    ¬ ((preprocess_data_to_milvus ⟨"case"⟩ wfs (4, 5) []
        (get_milvus_client true ⟨none, 0⟩).2 emptyStore).clientUsed = 0) ∧
    (preprocess_data_to_milvus ⟨"case"⟩ wfs (4, 5) []
        (get_milvus_client true ⟨none, 0⟩).2 emptyStore).clients.memo = some 0 := by
  decide

/-! ## C1: skip-all idempotence of ingestion -/

theorem process_file_store_eq (fs : FS) (s : LoopState) (f : FileEntry) :
    (process_file fs s f).store = s.store := by
  unfold process_file
  split
  · split <;> rfl
  · split
    · split <;> rfl
    · rfl

theorem flush_img_collections (fs : FS) (n : String) (s : LoopState) :
    (flush_img fs n s).store.collections = s.store.collections := by
  unfold flush_img
  split <;> rfl

theorem flush_txt_collections (fs : FS) (n : String) (s : LoopState) :
    (flush_txt fs n s).store.collections = s.store.collections := by
  unfold flush_txt
  split <;> rfl

theorem ingest_step_collections (fs : FS) (I T : String) (s : LoopState)
    (f : FileEntry) :
    (ingest_step fs I T s f).store.collections = s.store.collections := by
  unfold ingest_step
  dsimp only
  have h1 := process_file_store_eq fs s f
  split
  · split
    · rw [flush_txt_collections, flush_img_collections, h1]
    · rw [flush_img_collections, h1]
  · split
    · rw [flush_txt_collections, h1]
    · rw [h1]

theorem foldl_ingest_collections (fs : FS) (I T : String) :
    ∀ (files : List FileEntry) (ls : LoopState),
      (files.foldl (ingest_step fs I T) ls).store.collections
        = ls.store.collections := by
  intro files
  induction files with
  | nil => intro ls; rfl
  | cons f rest ih =>
    intro ls
    rw [List.foldl_cons, ih (ingest_step fs I T ls f), ingest_step_collections]

theorem hasCollection_create_self (st : StoreState) (n : String) (d : Nat) :
    (create_collection st n d).hasCollection n = true := by
  unfold create_collection
  split
  · assumption
  · unfold StoreState.hasCollection
    simp [List.any_append]

theorem hasCollection_create_mono (st : StoreState) (n m : String) (d : Nat)
    (h : st.hasCollection m = true) :
    (create_collection st n d).hasCollection m = true := by
  unfold create_collection
  split
  · exact h
  · unfold StoreState.hasCollection at h ⊢
    simp [List.any_append, h]

theorem hasCollection_of_collections_eq (st st' : StoreState) (n : String)
    (h : st.collections = st'.collections) :
    st.hasCollection n = st'.hasCollection n := by
  unfold StoreState.hasCollection
  rw [h]

/-- A run that proceeds past the existence check ends with a store whose
collections are exactly those after the two `create_collection` calls. -/
theorem preprocess_collections (cfg : Config) (fs : FS) (dims : Nat × Nat)
    (files : List FileEntry) (cs : ClientProcState) (st : StoreState)
    (hskip : (st.hasCollection (cfg.case_name ++ "__attachments_image") &&
              st.hasCollection (cfg.case_name ++ "__attachments_text")) = false) :
    (preprocess_data_to_milvus cfg fs dims files cs st).store.collections
      = (create_collection (create_collection st
          (cfg.case_name ++ "__attachments_image") dims.2)
          (cfg.case_name ++ "__attachments_text") dims.1).collections := by
  unfold preprocess_data_to_milvus
  dsimp only
  rw [if_neg (by rw [hskip]; simp)]
  dsimp only [StoreState.flushColl]
  rw [show (flush_txt fs (cfg.case_name ++ "__attachments_text") _).store.collections
      = _ from flush_txt_collections _ _ _]
  rw [show (flush_img fs (cfg.case_name ++ "__attachments_image") _).store.collections
      = _ from flush_img_collections _ _ _]
  rw [foldl_ingest_collections]

/-- C1: if both the image and the text collection already exist for the case,
ingestion returns immediately with the store untouched — in particular zero
insert calls — and therefore a second run against an unchanged source tree
(after a first run created both collections) performs zero inserts. -/
theorem ingestion_skip_all_idempotent
    (cfg : Config) (fs : FS) (dims : Nat × Nat) (files : List FileEntry)
    (cs : ClientProcState) (st : StoreState) :
    (st.hasCollection (cfg.case_name ++ "__attachments_image") = true →
     st.hasCollection (cfg.case_name ++ "__attachments_text") = true →
     (preprocess_data_to_milvus cfg fs dims files cs st).store = st ∧
     (preprocess_data_to_milvus cfg fs dims files cs st).store.insertLog
       = st.insertLog) ∧
    (∀ (files2 : List FileEntry) (cs2 : ClientProcState),
      (preprocess_data_to_milvus cfg fs dims files2 cs2
          ((preprocess_data_to_milvus cfg fs dims files cs emptyStore).store)).store
        = (preprocess_data_to_milvus cfg fs dims files cs emptyStore).store) := by
  have hfirst : ∀ (st' : StoreState),
      st'.hasCollection (cfg.case_name ++ "__attachments_image") = true →
      st'.hasCollection (cfg.case_name ++ "__attachments_text") = true →
      ∀ (fl : List FileEntry) (c : ClientProcState),
      (preprocess_data_to_milvus cfg fs dims fl c st').store = st' := by
    intro st' h1 h2 fl c
    unfold preprocess_data_to_milvus
    dsimp only
    rw [if_pos (by rw [h1, h2]; rfl)]
  constructor
  · intro h1 h2
    refine ⟨hfirst st h1 h2 files cs, ?_⟩
    rw [hfirst st h1 h2 files cs]
  · intro files2 cs2
    have hskip : (emptyStore.hasCollection (cfg.case_name ++ "__attachments_image") &&
        emptyStore.hasCollection (cfg.case_name ++ "__attachments_text")) = false := rfl
    have hcoll := preprocess_collections cfg fs dims files cs emptyStore hskip
    have himg : (preprocess_data_to_milvus cfg fs dims files cs emptyStore).store.hasCollection
        (cfg.case_name ++ "__attachments_image") = true := by
      rw [hasCollection_of_collections_eq _ _ _ hcoll]
      exact hasCollection_create_mono _ _ _ _ (hasCollection_create_self _ _ _)
    have htxt : (preprocess_data_to_milvus cfg fs dims files cs emptyStore).store.hasCollection
        (cfg.case_name ++ "__attachments_text") = true := by
      rw [hasCollection_of_collections_eq _ _ _ hcoll]
      exact hasCollection_create_self _ _ _
    exact hfirst _ himg htxt files2 cs2

/-- Witness for C1: a store already holding both collections of case "case". -/
theorem ingestion_skip_all_idempotent_witness :
    (preprocess_data_to_milvus ⟨"case"⟩ wfs (4, 5) [⟨"a.txt", ".txt"⟩] ⟨none, 0⟩
        ⟨[("case__attachments_image", 5), ("case__attachments_text", 4)], [], []⟩).store
      = ⟨[("case__attachments_image", 5), ("case__attachments_text", 4)], [], []⟩ ∧
    (preprocess_data_to_milvus ⟨"case"⟩ wfs (4, 5) [⟨"a.txt", ".txt"⟩] ⟨none, 0⟩
        ⟨[("case__attachments_image", 5), ("case__attachments_text", 4)], [], []⟩).store.insertLog
      = [] :=
  (ingestion_skip_all_idempotent ⟨"case"⟩ wfs (4, 5) [⟨"a.txt", ".txt"⟩] ⟨none, 0⟩
      ⟨[("case__attachments_image", 5), ("case__attachments_text", 4)], [], []⟩).1
    (by decide) (by decide)

/-! ## Insert-log lemmas and `process_file` characterizations -/

theorem insertCalls_insert_self (st : StoreState) (c : String) (rows : List Row) :
    insertCalls (st.insert c rows) c = insertCalls st c ++ [rows.length] := by
  unfold insertCalls StoreState.insert
  simp [List.filter_append]

theorem insertCalls_insert_other (st : StoreState) (c c' : String)
    (rows : List Row) (h : c ≠ c') :
    insertCalls (st.insert c rows) c' = insertCalls st c' := by
  unfold insertCalls StoreState.insert
  simp [List.filter_append, h]

theorem insertCalls_flushColl (st : StoreState) (n c : String) :
    insertCalls (st.flushColl n) c = insertCalls st c := rfl

theorem insertedRows_insert_self (st : StoreState) (c : String) (rows : List Row) :
    insertedRows (st.insert c rows) c = insertedRows st c ++ rows := by
  unfold insertedRows StoreState.insert
  simp [List.filter_append]

theorem insertedRows_insert_other (st : StoreState) (c c' : String)
    (rows : List Row) (h : c ≠ c') :
    insertedRows (st.insert c rows) c' = insertedRows st c' := by
  unfold insertedRows StoreState.insert
  simp [List.filter_append, h]

theorem insertedRows_flushColl (st : StoreState) (n c : String) :
    insertedRows (st.flushColl n) c = insertedRows st c := rfl

theorem process_file_of_image (fs : FS) (s : LoopState) (f : FileEntry)
    (h : isImageFile f = true) :
    process_file fs s f =
      (match image2vector fs.openImage f.path true with
       | some v => { s with imgBatch := s.imgBatch ++ [{ vector := v, path := f.path }] }
       | none => s) := by
  unfold process_file isImageFile at *
  rw [if_pos h]

theorem process_file_of_text_ok (fs : FS) (s : LoopState) (f : FileEntry)
    (t : String) (himg : isImageFile f = false) (htxt : isTextFile f = true)
    (ht : fs.readText f.path = .ok t) :
    process_file fs s f =
      { s with txtBatch := s.txtBatch ++
          [{ vector := text2vector (strTake t 500), path := f.path,
             content := strTake t 500 }] } := by
  unfold process_file isImageFile isTextFile at *
  rw [if_neg (by rw [himg]; simp), if_pos htxt, ht]

theorem process_file_of_skip (fs : FS) (s : LoopState) (f : FileEntry)
    (himg : isImageFile f = false) (he : isEligibleText fs f = false) :
    process_file fs s f = s := by
  unfold process_file
  rw [if_neg (by unfold isImageFile at himg; rw [himg]; simp)]
  by_cases htxt : isTextFile f = true
  · have hro : readOk fs f.path = false := by
      unfold isEligibleText at he
      rw [htxt] at he
      simpa using he
    unfold readOk at hro
    rw [if_pos (by unfold isTextFile at htxt; exact htxt)]
    cases hrt : fs.readText f.path with
    | ok t => rw [hrt] at hro; simp at hro
    | error e => rfl
  · rw [if_neg (by unfold isTextFile at htxt; simpa using htxt)]

theorem flush_img_nil (fs : FS) (n : String) (tb : List TxtItem) (st : StoreState) :
    flush_img fs n ⟨[], tb, st⟩ = ⟨[], tb, st⟩ := rfl

theorem flush_txt_nonempty (fs : FS) (n : String) (ib : List ImgItem)
    (tb : List TxtItem) (st : StoreState) (h : tb ≠ []) :
    flush_txt fs n ⟨ib, tb, st⟩ = ⟨ib, [], st.insert n (tb.map (txtRowMeta fs))⟩ := by
  unfold flush_txt
  rw [if_neg (by simp [h])]


/-- The text-batch entry `process_file` appends for a text file read as `t`. -/
def txtItemOf (f : FileEntry) (t : String) : TxtItem :=
  { vector := text2vector (strTake t 500), path := f.path, content := strTake t 500 }

theorem process_file_text_item (fs : FS) (s : LoopState) (f : FileEntry)
    (t : String) (himg : isImageFile f = false) (htxt : isTextFile f = true)
    (ht : fs.readText f.path = .ok t) :
    process_file fs s f = { s with txtBatch := s.txtBatch ++ [txtItemOf f t] } :=
  process_file_of_text_ok fs s f t himg htxt ht

theorem ingest_step_eligible_flush (fs : FS) (IMG TXT : String)
    (tb : List TxtItem) (st : StoreState) (f : FileEntry) (t : String)
    (hf : isImageFile f = false) (htxt : isTextFile f = true)
    (ht : fs.readText f.path = .ok t) (hlen : tb.length = 99) :
    ingest_step fs IMG TXT ⟨[], tb, st⟩ f =
      ⟨[], [], st.insert TXT ((tb ++ [txtItemOf f t]).map (txtRowMeta fs))⟩ := by
  unfold ingest_step
  dsimp only
  rw [process_file_text_item fs ⟨[], tb, st⟩ f t hf htxt ht]
  dsimp only
  have himgchk : ¬ (100 ≤ ([] : List ImgItem).length) := by simp
  rw [if_neg himgchk]
  have htxtchk : 100 ≤ (tb ++ [txtItemOf f t]).length := by
    simp [hlen]
  rw [if_pos htxtchk]
  exact flush_txt_nonempty fs TXT [] (tb ++ [txtItemOf f t]) st (by simp)

theorem ingest_step_eligible_noflush (fs : FS) (IMG TXT : String)
    (tb : List TxtItem) (st : StoreState) (f : FileEntry) (t : String)
    (hf : isImageFile f = false) (htxt : isTextFile f = true)
    (ht : fs.readText f.path = .ok t) (hlen : tb.length + 1 < 100) :
    ingest_step fs IMG TXT ⟨[], tb, st⟩ f = ⟨[], tb ++ [txtItemOf f t], st⟩ := by
  unfold ingest_step
  dsimp only
  rw [process_file_text_item fs ⟨[], tb, st⟩ f t hf htxt ht]
  dsimp only
  have himgchk : ¬ (100 ≤ ([] : List ImgItem).length) := by simp
  rw [if_neg himgchk]
  have htxtchk : ¬ (100 ≤ (tb ++ [txtItemOf f t]).length) := by
    simp
    omega
  rw [if_neg htxtchk]

theorem ingest_step_skip (fs : FS) (IMG TXT : String)
    (tb : List TxtItem) (st : StoreState) (f : FileEntry)
    (hf : isImageFile f = false) (he : isEligibleText fs f = false)
    (hlen : tb.length < 100) :
    ingest_step fs IMG TXT ⟨[], tb, st⟩ f = ⟨[], tb, st⟩ := by
  unfold ingest_step
  dsimp only
  rw [process_file_of_skip fs ⟨[], tb, st⟩ f hf he]
  dsimp only
  have himgchk : ¬ (100 ≤ ([] : List ImgItem).length) := by simp
  rw [if_neg himgchk]
  have htxtchk : ¬ (100 ≤ tb.length) := by omega
  rw [if_neg htxtchk]

/-- Invariant of the ingestion walk over a tree with no image files: the image
batch stays empty, the pending text batch holds the processed eligible count
modulo 100, and the text collection receives one 100-row insert per full
batch while the image collection receives none. -/
theorem ingest_loop_counts (fs : FS) (IMG TXT : String) (hne : IMG ≠ TXT) :
    ∀ (files : List FileEntry), (∀ f ∈ files, isImageFile f = false) →
    ∀ (tb : List TxtItem) (st : StoreState), tb.length < 100 →
    ((files.foldl (ingest_step fs IMG TXT) ⟨[], tb, st⟩).imgBatch = [] ∧
     (files.foldl (ingest_step fs IMG TXT) ⟨[], tb, st⟩).txtBatch.length
       = (tb.length + (files.filter (isEligibleText fs)).length) % 100 ∧
     insertCalls (files.foldl (ingest_step fs IMG TXT) ⟨[], tb, st⟩).store TXT
       = insertCalls st TXT ++
         List.replicate
           ((tb.length + (files.filter (isEligibleText fs)).length) / 100) 100 ∧
     insertCalls (files.foldl (ingest_step fs IMG TXT) ⟨[], tb, st⟩).store IMG
       = insertCalls st IMG) := by
  intro files
  induction files with
  | nil =>
    intro _ tb st htb
    refine ⟨rfl, ?_, ?_, rfl⟩
    · simp [Nat.mod_eq_of_lt htb]
    · simp [Nat.div_eq_of_lt htb]
  | cons f rest ih =>
    intro hni tb st htb
    have hf : isImageFile f = false := hni f (List.mem_cons_self f rest)
    have hrest : ∀ g ∈ rest, isImageFile g = false :=
      fun g hg => hni g (List.mem_cons_of_mem f hg)
    rw [List.foldl_cons]
    by_cases he : isEligibleText fs f = true
    · obtain ⟨t, ht⟩ : ∃ t, fs.readText f.path = .ok t := by
        unfold isEligibleText readOk at he
        cases hrt : fs.readText f.path with
        | ok t => exact ⟨t, rfl⟩
        | error e => rw [hrt] at he; simp at he
      have htxt : isTextFile f = true := by
        unfold isEligibleText at he
        exact ((Bool.and_eq_true _ _).mp he).1
      have hfiltc : ((f :: rest).filter (isEligibleText fs)).length
          = (rest.filter (isEligibleText fs)).length + 1 := by
        simp [List.filter_cons, he]
      by_cases hflush : tb.length + 1 = 100
      · rw [ingest_step_eligible_flush fs IMG TXT tb st f t hf htxt ht (by omega)]
        obtain ⟨ih1, ih2, ih3, ih4⟩ :=
          ih hrest [] (st.insert TXT ((tb ++ [txtItemOf f t]).map (txtRowMeta fs)))
            (by simp)
        refine ⟨ih1, ?_, ?_, ?_⟩
        · rw [ih2, hfiltc]
          simp only [List.length_nil]
          omega
        · rw [ih3, insertCalls_insert_self, hfiltc]
          have hlen : ((tb ++ [txtItemOf f t]).map (txtRowMeta fs)).length = 100 := by
            simp
            omega
          rw [hlen]
          have hdiv : (tb.length + ((rest.filter (isEligibleText fs)).length + 1)) / 100
              = ((rest.filter (isEligibleText fs)).length / 100) + 1 := by
            omega
          rw [hdiv, List.replicate_succ]
          simp only [List.length_nil, Nat.zero_add, List.append_assoc,
            List.singleton_append]
        · rw [ih4, insertCalls_insert_other st TXT IMG _ (Ne.symm hne)]
      · rw [ingest_step_eligible_noflush fs IMG TXT tb st f t hf htxt ht (by omega)]
        obtain ⟨ih1, ih2, ih3, ih4⟩ := ih hrest (tb ++ [txtItemOf f t]) st (by simp; omega)
        refine ⟨ih1, ?_, ?_, ih4⟩
        · rw [ih2, hfiltc]
          simp only [List.length_append, List.length_cons, List.length_nil]
          omega
        · rw [ih3, hfiltc]
          have hdiv : ((tb ++ [txtItemOf f t]).length
              + (rest.filter (isEligibleText fs)).length) / 100
              = (tb.length + ((rest.filter (isEligibleText fs)).length + 1)) / 100 := by
            simp only [List.length_append, List.length_cons, List.length_nil]
            omega
          rw [hdiv]
    · have he' : isEligibleText fs f = false := by simpa using he
      rw [ingest_step_skip fs IMG TXT tb st f hf he' htb]
      have hfiltc : (f :: rest).filter (isEligibleText fs)
          = rest.filter (isEligibleText fs) := by
        simp [List.filter_cons, he']
      rw [hfiltc]
      exact ih hrest tb st htb

theorem image_ne_text_coll (c : String) :
    c ++ "__attachments_image" ≠ c ++ "__attachments_text" := by
  intro h
  have hd := congrArg String.data h
  simp only [String.data_append] at hd
  have hsuffix := List.append_cancel_left hd
  exact absurd hsuffix (by decide)

theorem insertCalls_create (st : StoreState) (n : String) (d : Nat) (c : String) :
    insertCalls (create_collection st n d) c = insertCalls st c := by
  unfold create_collection
  split <;> rfl

theorem flush_img_of_empty (fs : FS) (n : String) (s : LoopState)
    (h : s.imgBatch = []) : flush_img fs n s = s := by
  unfold flush_img
  rw [if_pos (by simp [h])]

theorem flush_txt_of_nonempty (fs : FS) (n : String) (s : LoopState)
    (h : s.txtBatch ≠ []) :
    flush_txt fs n s =
      { s with txtBatch := [],
               store := s.store.insert n (s.txtBatch.map (txtRowMeta fs)) } := by
  unfold flush_txt
  rw [if_neg (by simp [h])]

theorem insertCalls_empty (c : String) : insertCalls emptyStore c = [] := rfl

/-- C2: ingesting a source tree with exactly 137 eligible text files and no
image files into a fresh store performs exactly two insert calls on the text
collection — one of 100 rows, then one of 37 rows drained at end-of-walk — no
insert call on the image collection, and leaves the text collection with a
final row count of 137. -/
theorem ingestion_batch_drain_completeness (cfg : Config) (fs : FS)
    (dims : Nat × Nat) (files : List FileEntry) (cs : ClientProcState)
    (hnoimg : ∀ f ∈ files, isImageFile f = false)
    (hcount : (files.filter (isEligibleText fs)).length = 137) :
    insertCalls (preprocess_data_to_milvus cfg fs dims files cs emptyStore).store
        (cfg.case_name ++ "__attachments_text") = [100, 37] ∧
    insertCalls (preprocess_data_to_milvus cfg fs dims files cs emptyStore).store
        (cfg.case_name ++ "__attachments_image") = [] ∧
    (preprocess_data_to_milvus cfg fs dims files cs emptyStore).store.rowCount
        (cfg.case_name ++ "__attachments_text") = 137 := by
  have hne : (cfg.case_name ++ "__attachments_image")
      ≠ (cfg.case_name ++ "__attachments_text") := image_ne_text_coll cfg.case_name
  obtain ⟨ih1, ih2, ih3, ih4⟩ := ingest_loop_counts fs
    (cfg.case_name ++ "__attachments_image") (cfg.case_name ++ "__attachments_text")
    hne files hnoimg []
    (create_collection
      (create_collection emptyStore (cfg.case_name ++ "__attachments_image") dims.2)
      (cfg.case_name ++ "__attachments_text") dims.1)
    (by simp)
  rw [hcount] at ih2 ih3
  simp only [List.length_nil, Nat.zero_add] at ih2 ih3
  rw [insertCalls_create, insertCalls_create, insertCalls_empty] at ih3 ih4
  norm_num at ih2 ih3
  have hnonnil : (files.foldl (ingest_step fs
      (cfg.case_name ++ "__attachments_image") (cfg.case_name ++ "__attachments_text"))
      ⟨[], [], create_collection
        (create_collection emptyStore (cfg.case_name ++ "__attachments_image") dims.2)
        (cfg.case_name ++ "__attachments_text") dims.1⟩).txtBatch ≠ [] := by
    intro hnil
    rw [hnil] at ih2
    simp at ih2
  unfold preprocess_data_to_milvus
  dsimp only
  rw [if_neg (by simp [emptyStore, StoreState.hasCollection])]
  dsimp only
  unfold StoreState.rowCount
  simp only [insertCalls_flushColl]
  rw [flush_img_of_empty fs _ _ ih1]
  rw [flush_txt_of_nonempty fs _ _ hnonnil]
  dsimp only
  rw [insertCalls_insert_self,
    insertCalls_insert_other _ _ _ _ (Ne.symm hne),
    ih3, ih4, List.length_map, ih2]
  refine ⟨rfl, rfl, rfl⟩

/-- A source tree of exactly 137 text files for the C2 witness. -/
def files137 : List FileEntry :=
  (List.range 137).map
    (fun i => { path := "f" ++ toString i ++ ".txt", suffix := ".txt" })

set_option maxRecDepth 4000 in
/-- Witness for C2 on a concrete 137-file tree. -/
theorem ingestion_batch_drain_completeness_witness :
    insertCalls (preprocess_data_to_milvus ⟨"case"⟩ wfs (4, 5) files137 ⟨none, 0⟩
        emptyStore).store ("case" ++ "__attachments_text") = [100, 37] ∧
    insertCalls (preprocess_data_to_milvus ⟨"case"⟩ wfs (4, 5) files137 ⟨none, 0⟩
        emptyStore).store ("case" ++ "__attachments_image") = [] ∧
    (preprocess_data_to_milvus ⟨"case"⟩ wfs (4, 5) files137 ⟨none, 0⟩
        emptyStore).store.rowCount ("case" ++ "__attachments_text") = 137 :=
  ingestion_batch_drain_completeness ⟨"case"⟩ wfs (4, 5) files137 ⟨none, 0⟩
    (by decide) (by decide)

/-! ## Conservation of text rows through the walk (for C4) -/

theorem isImageFile_not_text (f : FileEntry) (h : isImageFile f = true) :
    isTextFile f = false := by
  unfold isImageFile imageExts at h
  unfold isTextFile textExts
  have : lower f.suffix = ".jpg" ∨ lower f.suffix = ".jpeg" ∨ lower f.suffix = ".png" := by
    simpa using h
  rcases this with h' | h' | h' <;> simp [h']

theorem txtRowMeta_txtItemOf (fs : FS) (f : FileEntry) (t : String)
    (ht : fs.readText f.path = .ok t) :
    txtRowMeta fs (txtItemOf f t) = txtRowOf fs f := by
  unfold txtRowMeta txtItemOf txtRowOf
  rw [ht]

theorem process_file_txt_map (fs : FS) (s : LoopState) (f : FileEntry) :
    ((process_file fs s f).txtBatch).map (txtRowMeta fs)
      = s.txtBatch.map (txtRowMeta fs) ++
        (if isEligibleText fs f = true then [txtRowOf fs f] else []) := by
  by_cases himg : isImageFile f = true
  · have htxt : isTextFile f = false := isImageFile_not_text f himg
    have he : isEligibleText fs f = false := by
      unfold isEligibleText
      rw [htxt]
      rfl
    rw [process_file_of_image fs s f himg, he]
    cases image2vector fs.openImage f.path true <;> simp
  · have himg' : isImageFile f = false := by simpa using himg
    by_cases he : isEligibleText fs f = true
    · obtain ⟨t, ht⟩ : ∃ t, fs.readText f.path = .ok t := by
        unfold isEligibleText readOk at he
        cases hrt : fs.readText f.path with
        | ok t => exact ⟨t, rfl⟩
        | error e => rw [hrt] at he; simp at he
      have htxt : isTextFile f = true := by
        unfold isEligibleText at he
        exact ((Bool.and_eq_true _ _).mp he).1
      rw [process_file_text_item fs s f t himg' htxt ht, he]
      simp [txtRowMeta_txtItemOf fs f t ht]
    · have he' : isEligibleText fs f = false := by simpa using he
      rw [process_file_of_skip fs s f himg' he', he']
      simp

theorem flush_txt_conservation (fs : FS) (TXT : String) (s : LoopState) :
    insertedRows ((flush_txt fs TXT s).store) TXT ++
      ((flush_txt fs TXT s).txtBatch).map (txtRowMeta fs)
    = insertedRows s.store TXT ++ s.txtBatch.map (txtRowMeta fs) := by
  unfold flush_txt
  split
  · rfl
  · dsimp only
    rw [insertedRows_insert_self]
    simp

theorem flush_txt_txtBatch (fs : FS) (n : String) (s : LoopState) :
    (flush_txt fs n s).txtBatch = [] := by
  unfold flush_txt
  split
  · next h => exact List.isEmpty_iff.mp h
  · rfl

theorem flush_img_insertedRows_other (fs : FS) (IMG TXT : String)
    (hne : IMG ≠ TXT) (s : LoopState) :
    insertedRows ((flush_img fs IMG s).store) TXT = insertedRows s.store TXT := by
  unfold flush_img
  split
  · rfl
  · exact insertedRows_insert_other _ _ _ _ hne

theorem flush_img_txtBatch (fs : FS) (n : String) (s : LoopState) :
    (flush_img fs n s).txtBatch = s.txtBatch := by
  unfold flush_img
  split <;> rfl

theorem ingest_step_txt_conservation (fs : FS) (IMG TXT : String)
    (hne : IMG ≠ TXT) (s : LoopState) (f : FileEntry) :
    insertedRows ((ingest_step fs IMG TXT s f).store) TXT ++
      ((ingest_step fs IMG TXT s f).txtBatch).map (txtRowMeta fs)
    = insertedRows s.store TXT ++ s.txtBatch.map (txtRowMeta fs) ++
      (if isEligibleText fs f = true then [txtRowOf fs f] else []) := by
  unfold ingest_step
  dsimp only
  have htc : ∀ s' : LoopState,
      insertedRows ((if 100 ≤ s'.txtBatch.length then flush_txt fs TXT s' else s').store) TXT
        ++ ((if 100 ≤ s'.txtBatch.length then flush_txt fs TXT s' else s').txtBatch).map
          (txtRowMeta fs)
      = insertedRows s'.store TXT ++ s'.txtBatch.map (txtRowMeta fs) := by
    intro s'
    split
    · exact flush_txt_conservation fs TXT s'
    · rfl
  have hic : ∀ s' : LoopState,
      insertedRows ((if 100 ≤ s'.imgBatch.length then flush_img fs IMG s' else s').store) TXT
        ++ ((if 100 ≤ s'.imgBatch.length then flush_img fs IMG s' else s').txtBatch).map
          (txtRowMeta fs)
      = insertedRows s'.store TXT ++ s'.txtBatch.map (txtRowMeta fs) := by
    intro s'
    split
    · rw [flush_img_insertedRows_other fs IMG TXT hne, flush_img_txtBatch]
    · rfl
  rw [htc, hic, process_file_store_eq, process_file_txt_map]
  rw [List.append_assoc]

theorem ingest_loop_txt_rows (fs : FS) (IMG TXT : String) (hne : IMG ≠ TXT) :
    ∀ (files : List FileEntry) (ls : LoopState),
      insertedRows ((files.foldl (ingest_step fs IMG TXT) ls).store) TXT ++
        ((files.foldl (ingest_step fs IMG TXT) ls).txtBatch).map (txtRowMeta fs)
      = insertedRows ls.store TXT ++ ls.txtBatch.map (txtRowMeta fs) ++
        (files.filter (isEligibleText fs)).map (txtRowOf fs) := by
  intro files
  induction files with
  | nil => intro ls; simp
  | cons f rest ih =>
    intro ls
    rw [List.foldl_cons, ih (ingest_step fs IMG TXT ls f),
      ingest_step_txt_conservation fs IMG TXT hne ls f, List.filter_cons]
    by_cases he : isEligibleText fs f = true
    · simp [he]
    · have he' : isEligibleText fs f = false := by simpa using he
      simp [he']

theorem insertedRows_create (st : StoreState) (n : String) (d : Nat) (c : String) :
    insertedRows (create_collection st n d) c = insertedRows st c := by
  unfold create_collection
  split <;> rfl

/-- The text rows a fresh-store ingestion run inserts are exactly one row per
eligible text file, in walk order. -/
theorem preprocess_insertedRows_text (cfg : Config) (fs : FS) (dims : Nat × Nat)
    (files : List FileEntry) (cs : ClientProcState) :
    insertedRows (preprocess_data_to_milvus cfg fs dims files cs emptyStore).store
        (cfg.case_name ++ "__attachments_text")
      = (files.filter (isEligibleText fs)).map (txtRowOf fs) := by
  have hne := image_ne_text_coll cfg.case_name
  unfold preprocess_data_to_milvus
  dsimp only
  rw [if_neg (by simp [emptyStore, StoreState.hasCollection])]
  dsimp only
  simp only [insertedRows_flushColl]
  have hcomb := flush_txt_conservation fs (cfg.case_name ++ "__attachments_text")
    (flush_img fs (cfg.case_name ++ "__attachments_image")
      (files.foldl (ingest_step fs (cfg.case_name ++ "__attachments_image")
        (cfg.case_name ++ "__attachments_text"))
        ⟨[], [], create_collection
          (create_collection emptyStore (cfg.case_name ++ "__attachments_image") dims.2)
          (cfg.case_name ++ "__attachments_text") dims.1⟩))
  rw [flush_txt_txtBatch] at hcomb
  simp only [List.map_nil, List.append_nil] at hcomb
  rw [hcomb, flush_img_insertedRows_other fs _ _ hne, flush_img_txtBatch]
  rw [ingest_loop_txt_rows fs _ _ hne files]
  rw [insertedRows_create, insertedRows_create]
  simp [insertedRows, emptyStore]

/-! ## C4: metadata-extraction failure does not skip the file -/

/-- A filesystem whose exiftool always fails, for the C4 scenario. -/
def c4fs : FS :=
  ⟨fun _ => .error "x", fun _ => .ok "hello", fun p => p, fun _ => true,
   fun _ => .error (.otherError "exiftool crashed")⟩

/-- C4 as stated is false: ingesting the single text file "a.txt" whose
metadata extraction fails does not skip the file — its record is inserted
into the text collection (final row count 1), carrying the rendered error
string as its metadata. -/
theorem metadata_failure_no_skip_counterexample :
    (preprocess_data_to_milvus ⟨"case"⟩ c4fs (4, 5) [⟨"a.txt", ".txt"⟩] ⟨none, 0⟩
        emptyStore).store.rowCount ("case" ++ "__attachments_text") = 1 ∧
    insertedRows (preprocess_data_to_milvus ⟨"case"⟩ c4fs (4, 5) [⟨"a.txt", ".txt"⟩]
        ⟨none, 0⟩ emptyStore).store ("case" ++ "__attachments_text")
      = [{ vector := .textEnc "hello", path := "a.txt", modality := "text",
           content := "hello",
           metadata := "Error extracting metadata for \x27a.txt\x27: exiftool crashed" }] :=
  ⟨rfl, rfl⟩

/-- C4 (amended): a metadata-extraction exception during ingestion is caught
inside `get_all_metadata` and rendered as an error string; the file is NOT
skipped — its record is still inserted into the text collection, with the
error string as its metadata — and the run continues: every eligible text
file of the walk, this one included, gets its row inserted. -/
theorem metadata_failure_record_still_inserted (cfg : Config) (fs : FS)
    (dims : Nat × Nat) (files : List FileEntry) (cs : ClientProcState)
    (f : FileEntry) (d : String)
    (hmem : f ∈ files) (helig : isEligibleText fs f = true)
    (hexists : fs.pathExists (fs.abspath f.path) = true)
    (hexif : fs.exifMeta (fs.abspath f.path) = .error (.otherError d)) :
    txtRowOf fs f ∈ insertedRows
        (preprocess_data_to_milvus cfg fs dims files cs emptyStore).store
        (cfg.case_name ++ "__attachments_text") ∧
    (txtRowOf fs f).metadata =
      "Error extracting metadata for \x27" ++ fs.abspath f.path ++ "\x27: " ++ d ∧
    (∀ g ∈ files, isEligibleText fs g = true →
      txtRowOf fs g ∈ insertedRows
          (preprocess_data_to_milvus cfg fs dims files cs emptyStore).store
          (cfg.case_name ++ "__attachments_text")) := by
  have hrows := preprocess_insertedRows_text cfg fs dims files cs
  have hmeta : get_all_metadata fs.abspath fs.pathExists fs.exifMeta f.path
      = "Error extracting metadata for \x27" ++ fs.abspath f.path ++ "\x27: " ++ d := by
    unfold get_all_metadata
    dsimp only
    rw [if_neg (by rw [hexists]; simp), hexif]
  refine ⟨?_, ?_, ?_⟩
  · rw [hrows]
    exact List.mem_map_of_mem _ (List.mem_filter.mpr ⟨hmem, helig⟩)
  · obtain ⟨t, ht⟩ : ∃ t, fs.readText f.path = .ok t := by
      unfold isEligibleText readOk at helig
      cases hrt : fs.readText f.path with
      | ok t => exact ⟨t, rfl⟩
      | error e => rw [hrt] at helig; simp at helig
    unfold txtRowOf
    rw [ht]
    exact hmeta
  · intro g hg hgelig
    rw [hrows]
    exact List.mem_map_of_mem _ (List.mem_filter.mpr ⟨hg, hgelig⟩)

/-- Witness for C4's amended theorem: two text files, metadata extraction
failing; both rows are inserted, the failing one with the error string. -/
theorem metadata_failure_record_still_inserted_witness :
    txtRowOf c4fs ⟨"a.txt", ".txt"⟩ ∈ insertedRows
        (preprocess_data_to_milvus ⟨"case"⟩ c4fs (4, 5)
          [⟨"a.txt", ".txt"⟩, ⟨"b.txt", ".txt"⟩] ⟨none, 0⟩ emptyStore).store
        ("case" ++ "__attachments_text") ∧
    (txtRowOf c4fs ⟨"a.txt", ".txt"⟩).metadata =
      "Error extracting metadata for \x27" ++ c4fs.abspath "a.txt" ++ "\x27: " ++
        "exiftool crashed" ∧
    (∀ g ∈ [(⟨"a.txt", ".txt"⟩ : FileEntry), ⟨"b.txt", ".txt"⟩],
      isEligibleText c4fs g = true →
      txtRowOf c4fs g ∈ insertedRows
          (preprocess_data_to_milvus ⟨"case"⟩ c4fs (4, 5)
            [⟨"a.txt", ".txt"⟩, ⟨"b.txt", ".txt"⟩] ⟨none, 0⟩ emptyStore).store
          ("case" ++ "__attachments_text")) :=
  metadata_failure_record_still_inserted ⟨"case"⟩ c4fs (4, 5)
    [⟨"a.txt", ".txt"⟩, ⟨"b.txt", ".txt"⟩] ⟨none, 0⟩ ⟨"a.txt", ".txt"⟩
    "exiftool crashed" (by decide) (by decide) rfl rfl
